import Mathlib

/-!
Verification of the `simx` baseball simulation engine (Rust) against its
natural-language specification, via a shallow embedding in Lean 4.

Machine integers (`u64`, `u16`, `u8`, `usize`) are modelled as `ℕ` with an
explicit `% 2^w` wherever the source can overflow.  `f64` values produced by
the generator are exact dyadic rationals (mantissa / 2^52) and are modelled
in `ℚ`; transcendental / rounding-sensitive float operations (`sin`, `powf`)
are modelled as explicit oracle parameters where they occur.
-/

namespace Simx

/-! ## RNG (`src/rng.rs`)

`Rng` is XorShift128+ as seen in Node.js 12.  The state is two 64-bit words;
`next_buf` produces a batch of 64 raw outputs which `next_f64` consumes from
the *back* of the buffer (`next_back`).
-/

/-- Modulus of a 64-bit word. -/
def U64 : ℕ := 2 ^ 64

/-- One step of the generator, translated from `next` inside `next_buf`
(`src/rng.rs`).  Rust destructures `let [mut s1, s0] = *state`, so
`s1 = state[0]` and `s0 = state[1]`; the new state is `[s0, s1']` and the
output word is `s0 >> 12`. -/
def xsStep (s : ℕ × ℕ) : (ℕ × ℕ) × ℕ :=
  let s1 := s.1
  let s0 := s.2
  let s1 := (s1 ^^^ ((s1 <<< 23) % U64))
  let s1 := s1 ^^^ (s1 >>> 17)
  let s1 := s1 ^^^ s0
  let s1 := s1 ^^^ (s0 >>> 26)
  ((s0, s1), s0 >>> 12)

/-- `next_bufAux n s` produces `n` successive output words, in generation
order, together with the final state. -/
def next_bufAux : ℕ → ℕ × ℕ → (ℕ × ℕ) × List ℕ
  | 0, s => (s, [])
  | n + 1, s =>
      let (s', w) := xsStep s
      let (s'', ws) := next_bufAux n s'
      (s'', w :: ws)

/-- `next_buf` (`src/rng.rs`): a fresh batch of 64 raw words, in generation
order.  The words are consumed from the back of this list. -/
def next_buf (s : ℕ × ℕ) : (ℕ × ℕ) × List ℕ :=
  next_bufAux 64 s

/-- The generator: state words plus the remaining (undrawn) suffix of the
current 64-word batch, kept in generation order; draws take the last
element (`next_back`). -/
structure Rng where
  state : ℕ × ℕ
  iter : List ℕ
  deriving DecidableEq

/-- `Rng::seeded` (`src/rng.rs`): set the state words and immediately
produce a full batch. -/
def Rng.seeded (s0 s1 : ℕ) : Rng :=
  let (st, buf) := next_buf (s0 % U64, s1 % U64)
  ⟨st, buf⟩

/-- The raw 52-bit word consumed by one `next_f64` call: the last element of
the remaining batch, refilling via `next_buf` when the batch is exhausted.
`next_buf` always produces 64 words, so the `getD 0` default on the refill
path is never taken. -/
def Rng.nextWord (r : Rng) : ℕ × Rng :=
  match r.iter.getLast? with
  | some w => (w, ⟨r.state, r.iter.dropLast⟩)
  | none =>
      let (st, buf) := next_buf r.state
      (buf.getLast?.getD 0, ⟨st, buf.dropLast⟩)

/-- `Rng::next_f64` (`src/rng.rs`): splice the 52-bit word into the mantissa
of `1.0` and subtract `1.0`.  The resulting double is exactly the rational
`w / 2^52` (the splice and the subtraction are exact in IEEE-754 binary64),
which is the value we compute. -/
def Rng.next_f64 (r : Rng) : ℚ × Rng :=
  ((r.nextWord.1 : ℚ) / ((2 ^ 52 : ℕ) : ℚ), r.nextWord.2)

/-- The next `n` values drawn from the generator. -/
def Rng.drawN : Rng → ℕ → List ℚ
  | _, 0 => []
  | r, n + 1 => r.next_f64.1 :: r.next_f64.2.drawN n

/-- The next `n` raw 52-bit words consumed by the generator. -/
def Rng.drawWordsN : Rng → ℕ → List ℕ
  | _, 0 => []
  | r, n + 1 => r.nextWord.1 :: r.nextWord.2.drawWordsN n

/-- Fuel-bounded ceiling base-2 logarithm: `clog2Aux fuel m` computes the
smallest `k` with `m ≤ 2 ^ k`, provided `fuel ≥ m`. -/
def clog2Aux : ℕ → ℕ → ℕ
  | 0, _ => 0
  | fuel + 1, m => if m ≤ 1 then 0 else clog2Aux fuel ((m + 1) / 2) + 1

/-- Smallest `k` with `m ≤ 2 ^ k` (for `m ≥ 1`). -/
def clog2 (m : ℕ) : ℕ := clog2Aux m m

/-- Round a rational in `(0, 1)` — the range `next_f64` produces — to the
nearest IEEE-754 binary64 value, returned as an exact rational.  Writing
`q = n / d`, the binade exponent is `e = -k` where
`k = ⌈log₂ (d / n)⌉ = clog2 ⌈d / n⌉`, so that `2 ^ e ≤ q < 2 ^ (e + 1)`;
the 53-bit significand is then `m = round(n · 2 ^ (52 + k) / d)` and the
double is `m / 2 ^ (52 + k)`.  None of the decimal literals under test lies
exactly halfway between two doubles, so the half-up tie rule used here
agrees with the hardware's round-to-nearest-even on every input we use it
on.  Arguments outside `(0, 1)` are returned unchanged (not modelled). -/
def roundF64 (q : ℚ) : ℚ :=
  let n := q.num.toNat
  let d := q.den
  if n = 0 then q
  else if d ≤ n then q
  else
    let k := clog2 ((d + n - 1) / n)
    let m := (2 * (n * 2 ^ (52 + k)) + d) / (2 * d)
    (m : ℚ) / 2 ^ (52 + k)

/-- The published reference sequence from the `sixpack` test
(`src/rng.rs`), as exact decimal rationals; each entry is the shortest
decimal rendering of the corresponding binary64 value. -/
def sixpackDoubles : List ℚ :=
  [0.49703677530116863, 0.5353334247728434, 0.7801376811715985,
   0.9477862995677102, 0.5432353904550866, 0.09148519432489,
   0.13637348943299, 0.2402088683966459, 0.7684839792424973,
   0.17754516970112522, 0.9256864810331178, 0.47320243374628146,
   0.5251933427814042, 0.5415813280082218, 0.05882883251148385,
   0.07467658384889164, 0.5112415100190766, 0.04157180867790067,
   0.6657740824633718, 0.04772255121420832, 0.22310586243568764,
   0.436032456675467, 0.46330930297334705, 0.483643577821103,
   0.8551471045385424, 0.2681344624704567]

/-- `serialize_iter` (`src/rng.rs`): the serialized form is the state words
together with the remaining slice of the batch (`iter.as_slice()`, i.e. the
prefix not yet consumed from the back). -/
def Rng.serialize (r : Rng) : (ℕ × ℕ) × List ℕ :=
  (r.state, r.iter)

/-- `deserialize_iter` (`src/rng.rs`): copy `min 64 v.length` words into the
front of a fresh 64-word buffer, then consume `64 - len` elements from the
back, leaving exactly the copied prefix. -/
def Rng.deserialize (p : (ℕ × ℕ) × List ℕ) : Rng :=
  let len := min 64 p.2.length
  ⟨p.1, p.2.take len⟩

/-- `Rng::choose` (`src/rng.rs`): draw one uniform and index the sequence at
`floor(draw * len)`; `nth` returns `none` only when the index is out of
range, i.e. only for an empty sequence (the draw is `< 1`).  The `f64`
product is modelled exactly over `ℚ`; for the power-of-two lengths used in
player generation the hardware product is exact as well. -/
def Rng.choose {α : Type} (r : Rng) (l : List α) : Option α × Rng :=
  let d := r.next_f64.1
  let n := (Rat.floor (d * (l.length : ℚ))).toNat
  (l.get? n, r.next_f64.2)

/-! ## Identifiers, entities, and the database
(`src/id.rs`, `src/player.rs`, `src/team.rs`, `src/game.rs`,
`src/database.rs`)

Identifiers are 128-bit UUIDs; we model them as `ℕ` with the reserved nil
value `0`.  `u8`/`u16` counters are `ℕ` with an explicit `% 2 ^ 8` /
`% 2 ^ 16` at each increment. -/

/-- Modulus of a `u8`. -/
def U8 : ℕ := 2 ^ 8

/-- Modulus of a `u16`. -/
def U16 : ℕ := 2 ^ 16

abbrev PlayerId := ℕ
abbrev TeamId := ℕ
abbrev GameId := ℕ

/-- `Date` (`src/util.rs`). -/
structure Date where
  season : ℕ
  day : ℕ
  deriving DecidableEq, Inhabited

/-- `Player` (`src/player.rs`): the 26 continuous attributes (exact
rationals, as produced by `next_f64`) plus the discrete ones. -/
structure Player where
  id : PlayerId
  name : String
  deceased : Bool
  thwackability : ℚ
  moxie : ℚ
  divinity : ℚ
  musclitude : ℚ
  patheticism : ℚ
  buoyancy : ℚ
  base_thirst : ℚ
  laserlikeness : ℚ
  ground_friction : ℚ
  continuation : ℚ
  indulgence : ℚ
  martyrdom : ℚ
  tragicness : ℚ
  shakespearianism : ℚ
  suppression : ℚ
  unthwackability : ℚ
  coldness : ℚ
  overpowerment : ℚ
  ruthlessness : ℚ
  omniscience : ℚ
  tenaciousness : ℚ
  watchfulness : ℚ
  anticapitalism : ℚ
  chasiness : ℚ
  pressurization : ℚ
  cinnamon : ℚ
  soul : ℕ
  peanut_allergy : Bool
  fate : ℕ
  ritual : String
  blood : ℕ
  coffee : ℕ
  deriving DecidableEq, Inhabited

/-- `Team` (`src/team.rs`). -/
structure Team where
  id : TeamId
  location : String
  nickname : String
  lineup : List PlayerId
  rotation : List PlayerId
  shadows : List PlayerId
  rotation_slot : ℕ
  deriving DecidableEq, Inhabited

/-- `Team::name`. -/
def Team.name (t : Team) : String :=
  t.location ++ " " ++ t.nickname

/-- `GameTeam` (`src/game.rs`); `runs` is a `u16`. -/
structure GameTeam where
  id : TeamId
  runs : ℕ
  runs_by_inning : List ℕ
  pitcher : Option PlayerId
  lineup_slot : ℕ
  deriving DecidableEq, Inhabited

/-- `Inning` (`src/game.rs`): the four half-inning phases; the default
`Top 0` is the pre-game sentinel. -/
inductive Inning
  | Top (n : ℕ)
  | Mid (n : ℕ)
  | Bottom (n : ℕ)
  | End (n : ℕ)
  deriving DecidableEq

instance : Inhabited Inning := ⟨Inning.Top 0⟩

/-- `Inning::advance`. -/
def Inning.advance : Inning → Inning
  | Inning.Top n => Inning.Mid n
  | Inning.Mid n => Inning.Bottom n
  | Inning.Bottom n => Inning.End n
  | Inning.End n => Inning.Top (n + 1)

/-- `Inning::word`. -/
def Inning.word : Inning → String
  | Inning.Top _ => "Top"
  | Inning.Mid _ => "Mid"
  | Inning.Bottom _ => "Bottom"
  | Inning.End _ => "End"

/-- `Inning::number`. -/
def Inning.number : Inning → ℕ
  | Inning.Top n | Inning.Mid n | Inning.Bottom n | Inning.End n => n

/-- `TeamSelect` (`src/game.rs`). -/
inductive TeamSelect
  | Away
  | Home
  deriving DecidableEq

/-- `Inning::batting`. -/
def Inning.batting : Inning → TeamSelect
  | Inning.Top _ | Inning.Mid _ => TeamSelect.Away
  | Inning.Bottom _ | Inning.End _ => TeamSelect.Home

/-- `Inning::fielding`. -/
def Inning.fielding : Inning → TeamSelect
  | Inning.Top _ | Inning.Mid _ => TeamSelect.Home
  | Inning.Bottom _ | Inning.End _ => TeamSelect.Away

/-- `AwayHome` (`src/game.rs`). -/
structure AwayHome (α : Type) where
  away : α
  home : α
  deriving DecidableEq, Inhabited

/-- `AwayHome::select`. -/
def AwayHome.select {α : Type} (t : AwayHome α) : TeamSelect → α
  | TeamSelect.Away => t.away
  | TeamSelect.Home => t.home

/-- `AwayHome::select_mut` followed by a mutation, as a functional update. -/
def AwayHome.update {α : Type} (t : AwayHome α) : TeamSelect → (α → α) → AwayHome α
  | TeamSelect.Away, f => { t with away := f t.away }
  | TeamSelect.Home, f => { t with home := f t.home }

/-- `Game` (`src/game.rs`); `balls`/`strikes`/`outs` are `u8`, a baserunner
is a (player, base-number) pair. -/
structure Game where
  id : GameId
  winner : Option TeamId
  last_update : String
  teams : AwayHome GameTeam
  inning : Inning
  at_bat : Option PlayerId
  balls : ℕ
  strikes : ℕ
  outs : ℕ
  baserunners : List (PlayerId × ℕ)
  deriving DecidableEq, Inhabited

/-- `Game::is_finished`. -/
def Game.is_finished (g : Game) : Bool :=
  g.winner.isSome

/-- `Game::bases_occupied` returns the set of occupied base numbers; we keep
the underlying list, which is membership-equivalent. -/
def Game.bases_occupied (g : Game) : List ℕ :=
  g.baserunners.map (fun rb => rb.2)

/-- `DatabaseError` (`src/database.rs`). -/
inductive DatabaseError
  | NilId
  | BadReference (kind : String) (id : ℕ)
  | DuplicatePlayer (player : PlayerId)
  deriving DecidableEq

/-- The `thiserror` display strings of `DatabaseError` (identifiers shown
via their numeric model rather than UUID hex). -/
def DatabaseError.message : DatabaseError → String
  | DatabaseError.NilId => "object ID is nil"
  | DatabaseError.BadReference kind id =>
      "reference to nonexistent " ++ kind ++ " " ++ toString id
  | DatabaseError.DuplicatePlayer p =>
      "player " ++ toString p ++ " is on the roster multiple times"

/-- `Database` (`src/database.rs`): the `BTreeMap`s are modelled as
association lists (key, entity); map well-formedness (no duplicate keys) is
a hypothesis where a claim needs it. -/
structure Database where
  date : Date
  teams : List (TeamId × Team)
  players : List (PlayerId × Player)
  games_today : List Game
  deriving DecidableEq, Inhabited

/-- `BTreeMap::contains_key` on the team map. -/
def Database.teamsContains (db : Database) (id : TeamId) : Bool :=
  db.teams.any (fun kv => kv.1 = id)

/-- `BTreeMap::contains_key` on the player map. -/
def Database.playersContains (db : Database) (id : PlayerId) : Bool :=
  db.players.any (fun kv => kv.1 = id)

/-- `TeamId::load` (`src/id.rs`): the source panics when the id is absent
(a broken invariant); the model returns the default entity there. -/
def Database.loadTeam (db : Database) (id : TeamId) : Team :=
  match db.teams.find? (fun kv => kv.1 = id) with
  | some kv => kv.2
  | none => default

/-- `PlayerId::load` (`src/id.rs`); same panic-as-default convention. -/
def Database.loadPlayer (db : Database) (id : PlayerId) : Player :=
  match db.players.find? (fun kv => kv.1 = id) with
  | some kv => kv.2
  | none => default

/-- `TeamId::load_mut` followed by a mutation, as a functional update. -/
def Database.modifyTeam (db : Database) (id : TeamId) (f : Team → Team) : Database :=
  { db with teams := db.teams.map (fun kv => if kv.1 = id then (kv.1, f kv.2) else kv) }

/-- `BTreeMap::insert` on the player map: replace the value when the key is
present, otherwise add the entry. -/
def Database.insertPlayer (db : Database) (id : PlayerId) (p : Player) : Database :=
  if db.playersContains id then
    { db with players := db.players.map (fun kv => if kv.1 = id then (kv.1, p) else kv) }
  else
    { db with players := db.players ++ [(id, p)] }

/-! ## Consistency checking (`src/database.rs`, `src/team.rs`,
`src/game.rs`, `src/lib.rs`) -/

/-- A team's three rosters chained, as `CheckEntity for Team` iterates them:
lineup, rotation, shadows. -/
def Team.roster (t : Team) : List PlayerId :=
  t.lineup ++ t.rotation ++ t.shadows

/-- `CheckEntity::problems for Team` (`src/team.rs`): nil id, then for each
distinct roster member a dangling-reference error if absent from the player
map and a duplicate error if it occurs more than once.  The source tallies
the roster in a `HashMap` whose iteration order is unspecified; we iterate
the de-duplicated roster, which produces the same multiset of errors. -/
def Team.problems (t : Team) (db : Database) : List DatabaseError :=
  (if t.id = 0 then [DatabaseError.NilId] else [])
    ++ t.roster.dedup.flatMap (fun p =>
        (if db.playersContains p then [] else [DatabaseError.BadReference "player" p])
          ++ (if 1 < t.roster.count p then [DatabaseError.DuplicatePlayer p] else []))

/-- `CheckEntity::problems for Game` (`src/game.rs`): nil id, then the
winner and both game-team ids against the team map, then the batter, the
baserunners, and both pitchers against the player map. -/
def Game.problems (g : Game) (db : Database) : List DatabaseError :=
  (if g.id = 0 then [DatabaseError.NilId] else [])
    ++ (g.winner.toList ++ [g.teams.away.id, g.teams.home.id]).flatMap (fun t =>
        if db.teamsContains t then [] else [DatabaseError.BadReference "team" t])
    ++ (g.at_bat.toList ++ g.baserunners.map (fun rb => rb.1)
          ++ g.teams.away.pitcher.toList ++ g.teams.home.pitcher.toList).flatMap (fun p =>
        if db.playersContains p then [] else [DatabaseError.BadReference "player" p])

/-- Modelled from the spec: the `CheckEntity` implementation for `Player` is
called by `check_consistency` but is not among the source files.  Of the §3
global invariants only "no entity's identifier is nil" is player-local, so
the player check reports exactly a nil identifier. -/
def Player.problems (p : Player) (_db : Database) : List DatabaseError :=
  if p.id = 0 then [DatabaseError.NilId] else []

/-- `Database::check_consistency` (`src/database.rs`): key/id agreement for
both maps, then the per-entity checks for teams, players, and today's
games; `Ok` when no problem was found, otherwise all problems joined with
newlines. -/
def Database.consistencyProblems (db : Database) : List String :=
  db.teams.flatMap (fun kv =>
      if kv.2.id = kv.1 then []
      else ["- team " ++ toString kv.2.id ++ ": keyed with " ++ toString kv.1])
    ++ db.players.flatMap (fun kv =>
      if kv.2.id = kv.1 then []
      else ["- player " ++ toString kv.2.id ++ ": keyed with " ++ toString kv.1])
    ++ db.teams.flatMap (fun kv =>
      (kv.2.problems db).map (fun e => "- team " ++ toString kv.2.id ++ ": " ++ e.message))
    ++ db.players.flatMap (fun kv =>
      (kv.2.problems db).map (fun e => "- player " ++ toString kv.2.id ++ ": " ++ e.message))
    ++ db.games_today.flatMap (fun g =>
      (g.problems db).map (fun e => "- game " ++ toString g.id ++ ": " ++ e.message))

/-- `Database::check_consistency`'s result. -/
def Database.check_consistency (db : Database) : Except String Unit :=
  if db.consistencyProblems.isEmpty then Except.ok ()
  else Except.error (String.intercalate "\n" db.consistencyProblems)

/-- `deserialize_database` (`src/lib.rs`), applied to the raw `Database`
value serde produced: re-run the consistency check and fail the whole
deserialization with the joined problem list if it reports anything. -/
def deserialize_database (db : Database) : Except String Database :=
  match db.check_consistency with
  | Except.ok _ => Except.ok db
  | Except.error e => Except.error e

/-- The global invariants of §3, stated from the spec's words: no nil
identifiers, map keys equal entity ids, roster references resolve with no
duplicate membership, and every game's team and player references
resolve. -/
def ConsistentDb (db : Database) : Prop :=
  (∀ kv ∈ db.teams, kv.2.id = kv.1 ∧ kv.2.id ≠ 0) ∧
  (∀ kv ∈ db.players, kv.2.id = kv.1 ∧ kv.2.id ≠ 0) ∧
  (∀ kv ∈ db.teams, ∀ p ∈ (kv.2 : Team).roster,
      db.playersContains p = true ∧ (kv.2 : Team).roster.count p = 1) ∧
  (∀ g ∈ db.games_today,
      g.id ≠ 0 ∧
      (∀ t ∈ g.winner.toList ++ [g.teams.away.id, g.teams.home.id],
          db.teamsContains t = true) ∧
      (∀ p ∈ g.at_bat.toList ++ g.baserunners.map (fun rb => rb.1)
            ++ g.teams.away.pitcher.toList ++ g.teams.home.pitcher.toList,
          db.playersContains p = true))

/-! ## Game state machine (`src/sim.rs`) -/

/-- `Game::handle_out`: register an out; on the third out, reset the count
and the outs, clear the at-bat and the bases, advance the batting team's
lineup cursor, and advance the inning phase.  The cursor bump uses the
batting side of the inning *before* it advances, as in the source. -/
def Game.handle_out (g : Game) : Game :=
  let g := { g with outs := (g.outs + 1) % U8 }
  if 3 ≤ g.outs then
    let batting := g.inning.batting
    { g with balls := 0, strikes := 0, outs := 0, at_bat := none,
             teams := g.teams.update batting
               (fun t => { t with lineup_slot := t.lineup_slot + 1 }),
             baserunners := [],
             inning := g.inning.advance }
  else g

/-- One runner's base after the force-advance of `Game::handle_ball`: the
runner advances one base exactly when every base in `1..base` (strictly
below their own) is occupied, and stays otherwise. -/
def walkStep (occupied : List ℕ) (base : ℕ) : ℕ :=
  if (List.range' 1 (base - 1)).all (fun b => occupied.contains b) then (base + 1) % U8
  else base

/-- The force-advance loop of `Game::handle_ball`: each runner's base is
`walkStep`'d; a runner whose resulting base is `≥ 4` (home) scores and is
removed.  Returns the surviving runners and the scorers, each in original
order. -/
def walkAdvance (occupied : List ℕ) :
    List (PlayerId × ℕ) → List (PlayerId × ℕ) × List PlayerId
  | [] => ([], [])
  | (runner, base) :: rest =>
      let base' := walkStep occupied base
      let r := walkAdvance occupied rest
      if 4 ≤ base' then (r.1, runner :: r.2) else ((runner, base') :: r.1, r.2)

/-- `Game::handle_ball`: register a ball; on the fourth ball force-advance
the runners (`walkAdvance`), score those reaching home, place the batter on
first, clear the at-bat, and advance the batting team's lineup cursor.  The
source builds a message naming each scorer but then returns a fresh
"draws a walk." string, discarding the scorers' message; per-scorer run
increments are applied as one sum (the `% 2 ^ 16` compositions agree). -/
def Game.handle_ball (g : Game) (batter : Player) (db : Database) : Game × String :=
  let g := { g with balls := (g.balls + 1) % U8 }
  if 4 ≤ g.balls then
    let occupied := g.bases_occupied
    let adv := walkAdvance occupied g.baserunners
    let batting := g.inning.batting
    let _message := adv.2.foldl
      (fun m p => m ++ " " ++ (db.loadPlayer p).name ++ " scores!")
      (batter.name ++ " draws a walk.")
    let g := { g with
      baserunners := adv.1 ++ [(batter.id, 1)],
      teams := g.teams.update batting
        (fun t => { t with runs := (t.runs + adv.2.length) % U16 }),
      at_bat := none }
    let teams := g.teams.update batting (fun t => { t with lineup_slot := t.lineup_slot + 1 })
    let g := { g with teams := teams }
    (g, batter.name ++ " draws a walk.")
  else
    (g, "Ball. " ++ toString g.balls ++ "-" ++ toString g.strikes)

/-- `Game::handle_strike`: register a strike; on the third strike register
an out, clear the at-bat, and advance the batting team's lineup cursor.
`handle_out` may advance the inning on the third out; the cursor bump here
then addresses the *new* inning's batting side, exactly as the source
does. -/
def Game.handle_strike (g : Game) (batter : Player) (kind : String) : Game × String :=
  let g := { g with strikes := (g.strikes + 1) % U8 }
  if 3 ≤ g.strikes then
    let g := g.handle_out
    let g := { g with at_bat := none }
    let teams := g.teams.update g.inning.batting (fun t => { t with lineup_slot := t.lineup_slot + 1 })
    let g := { g with teams := teams }
    (g, batter.name ++ " strikes out " ++ kind ++ ".")
  else
    (g, "Strike, " ++ kind ++ ". " ++ toString g.balls ++ "-" ++ toString g.strikes)

/-- `Game::handle_home_run`: drain the baserunners counting one run per
*runner* (the batter is not counted), add those runs to the batting team,
and announce "solo" exactly when that count is 1. -/
def Game.handle_home_run (g : Game) (batter : Player) : Game × String :=
  let runs := g.baserunners.length
  let g := { g with
    baserunners := [],
    teams := g.teams.update g.inning.batting
      (fun t => { t with runs := (t.runs + runs) % U16 }) }
  (g, if runs = 1 then batter.name ++ " hits a solo home run!"
      else batter.name ++ " hits a " ++ toString runs ++ "-run home run!")

/-- The advance loop of `Game::handle_base_hit`: every runner moves up by
the hit's base count; a runner reaching `≥ 4` (home) scores and is removed.
Returns the surviving runners and the scorers, each in original order. -/
def baseHitAdvance (bases : ℕ) :
    List (PlayerId × ℕ) → List (PlayerId × ℕ) × List PlayerId
  | [] => ([], [])
  | (runner, base) :: rest =>
      let base' := (base + bases) % U8
      let r := baseHitAdvance bases rest
      if 4 ≤ base' then (r.1, runner :: r.2) else ((runner, base') :: r.1, r.2)

/-- `Game::handle_base_hit`: announce the hit, advance every pre-existing
runner by the hit's base count, score those reaching home.  The batter is
not placed on base, the at-bat is not cleared, the count is untouched, and
no lineup cursor moves.  Per-scorer run increments are applied as one sum
(the `% 2 ^ 16` compositions agree). -/
def Game.handle_base_hit (g : Game) (batter : Player) (db : Database) (bases : ℕ) :
    Game × String :=
  let msg0 :=
    if bases = 1 then batter.name ++ " hits a Single!"
    else if bases = 2 then batter.name ++ " hits a Double!"
    else if bases = 3 then batter.name ++ " hits a Triple!"
    else if bases = 4 then batter.name ++ " hits a Quadruple!"
    else batter.name ++ " hits a " ++ toString bases ++ "-base Hit!"
  let adv := baseHitAdvance bases g.baserunners
  let message := adv.2.foldl
    (fun m p => m ++ " " ++ (db.loadPlayer p).name ++ " scores!") msg0
  let g := { g with
    baserunners := adv.1,
    teams := g.teams.update g.inning.batting
      (fun t => { t with runs := (t.runs + adv.2.length) % U16 }) }
  (g, message)

/-- `Ord::cmp` on unsigned integers, as `handle_game_over` matches on it. -/
def cmpNat (a b : ℕ) : Ordering :=
  if a < b then Ordering.lt else if b < a then Ordering.gt else Ordering.eq

/-- `Game::handle_game_over`: in `Mid n`/`End n` with `n ≥ 9` and the away
team trailing, the home team wins; in `End n` with `n ≥ 9` and the away
team leading, the away team wins; otherwise nothing happens (`none`).  On a
win the winner field is set, both teams' rotation cursors in the database
advance by one, and the final score line is produced. -/
def Game.handle_game_over (g : Game) (db : Database) :
    Option (Game × Database × String) :=
  let w :=
    match g.inning, cmpNat g.teams.away.runs g.teams.home.runs with
    | Inning.Mid n, Ordering.lt => if 9 ≤ n then some TeamSelect.Home else none
    | Inning.End n, Ordering.lt => if 9 ≤ n then some TeamSelect.Home else none
    | Inning.End n, Ordering.gt => if 9 ≤ n then some TeamSelect.Away else none
    | _, _ => none
  match w with
  | none => none
  | some w =>
      let g := { g with winner := some (g.teams.select w).id }
      let db := db.modifyTeam g.teams.away.id
        (fun t => { t with rotation_slot := t.rotation_slot + 1 })
      let db := db.modifyTeam g.teams.home.id
        (fun t => { t with rotation_slot := t.rotation_slot + 1 })
      some (g, db,
        "Game over. " ++ (db.loadTeam g.teams.away.id).nickname ++ " "
          ++ toString g.teams.away.runs ++ ", "
          ++ (db.loadTeam g.teams.home.id).nickname ++ " "
          ++ toString g.teams.home.runs)

/-- The per-tick loop of `Sim::tick` (`src/sim.rs`): finished games are
skipped; each unfinished game is swapped out, ticked with exclusive access
to the shared RNG and database, given its update string as `last_update`,
and swapped back.  The per-game step body is a parameter — the claims below
hold for every step body. -/
def Sim.tickGames (step : Game → Rng × Database → (Game × String) × (Rng × Database)) :
    List Game → Rng × Database → List Game × (Rng × Database)
  | [], s => ([], s)
  | game :: rest, s =>
      if game.is_finished then
        (game :: (Sim.tickGames step rest s).1, (Sim.tickGames step rest s).2)
      else
        let r := step game s
        ({ r.1.1 with last_update := r.1.2 } :: (Sim.tickGames step rest r.2).1,
          (Sim.tickGames step rest r.2).2)

/-! ## Ballpark and the outcome model (`src/ballpark.rs`, `src/sim.rs`)

Every roll site uses `Ballpark::default()`.  The per-day `vibes` value is
`sin(π ((2 / frequency) day + 0.5))` — a transcendental `f64` computation —
so the roll functions below take each player's vibes value as an explicit
input, and the `powf` calls are explicit function parameters; the claims
proved about these functions hold for every value of those oracles.  A
threshold of `none` models `f64::NAN`, and `draw < NAN` is `false`. -/

/-- `Ballpark` (`src/ballpark.rs`), attributes only. -/
structure Ballpark where
  ominousness : ℚ
  forwardness : ℚ
  obtuseness : ℚ
  grandiosity : ℚ
  fortification : ℚ
  elongation : ℚ
  inconvenience : ℚ
  viscosity : ℚ
  hype : ℚ
  mysticism : ℚ
  luxuriousness : ℚ
  filthiness : ℚ
  birds : ℤ

/-- `Ballpark::default` (`src/ballpark.rs`). -/
def Ballpark.dflt : Ballpark :=
  { ominousness := 0.5, forwardness := 0.5, obtuseness := 0.5, grandiosity := 0.5,
    fortification := 0.5, elongation := 0.5, inconvenience := 0.5, viscosity := 0.5,
    hype := 0.0, mysticism := 0.5, luxuriousness := 0.0, filthiness := 0.0, birds := 0 }

/-- The "combined" term of `roll_swing` for a pitch outside the zone
(`strike = false`); the swing threshold is NaN exactly when this is
negative. -/
def swing_ball_combined (pitcher batter : Player) (pitcherVibes batterVibes : ℚ) : ℚ :=
  let batter_vibes_mod := 1 + 0.2 * batterVibes
  let pitcher_vibes_mod := 1 + 0.2 * pitcherVibes
  let moxie := batter.moxie * batter_vibes_mod
  let path := batter.patheticism
  let ruth := pitcher.ruthlessness * pitcher_vibes_mod
  (12 * ruth - 5 * moxie + 5 * path + 4 * Ballpark.dflt.viscosity) / 20

/-- The threshold of `roll_swing` (`src/sim.rs`); `none` is `f64::NAN`.
`powf15` stands for the `f64` computation `x.powf(1.5)`. -/
def roll_swing_threshold (powf15 : ℚ → ℚ) (pitcher batter : Player)
    (pitcherVibes batterVibes : ℚ) (strike : Bool) : Option ℚ :=
  let ballpark := Ballpark.dflt
  let batter_vibes_mod := 1 + 0.2 * batterVibes
  let pitcher_vibes_mod := 1 + 0.2 * pitcherVibes
  if strike then
    let div := batter.divinity * batter_vibes_mod
    let musc := batter.musclitude * batter_vibes_mod
    let thwack := batter.thwackability * batter_vibes_mod
    let invpath := (1 - batter.patheticism) * batter_vibes_mod
    let ruth := pitcher.ruthlessness * pitcher_vibes_mod
    let combined := (div + musc + invpath + thwack) / 4
    some (0.6 + 0.35 * combined - 0.2 * ruth + 0.2 * (ballpark.viscosity - 0.5))
  else
    let combined := swing_ball_combined pitcher batter pitcherVibes batterVibes
    if combined < 0 then none
    else some (min (max (powf15 combined) 0.1) 0.95)

/-- `roll_swing` (`src/sim.rs`): `draw < threshold`, which is `false` for
every draw when the threshold is NaN. -/
def roll_swing (powf15 : ℚ → ℚ) (pitcher batter : Player)
    (pitcherVibes batterVibes : ℚ) (strike : Bool) (draw : ℚ) : Bool :=
  match roll_swing_threshold powf15 pitcher batter pitcherVibes batterVibes strike with
  | none => false
  | some t => draw < t

/-- The "combined" term of `roll_contact` for a pitch in the zone
(`strike = true`); the contact threshold is NaN exactly when this is
negative. -/
def contact_strike_combined (batter : Player) (batterVibes : ℚ) : ℚ :=
  let batter_vibes_mod := 1 + 0.2 * batterVibes
  (batter.divinity + batter.musclitude + batter.thwackability - batter.patheticism)
    / 2 * batter_vibes_mod

/-- The threshold of `roll_contact` (`src/sim.rs`); `none` is `f64::NAN`.
`powf12` and `powf15` stand for `x.powf(1.2)` and `x.powf(1.5)`. -/
def roll_contact_threshold (powf12 powf15 : ℚ → ℚ) (pitcher batter : Player)
    (pitcherVibes batterVibes : ℚ) (strike : Bool) : Option ℚ :=
  let ballpark := Ballpark.dflt
  let fort := ballpark.fortification - 0.5
  let visc := ballpark.viscosity - 0.5
  let fwd := ballpark.forwardness - 0.5
  let ballpark_sum := (fort + 3 * visc - 6 * fwd) / 10
  let batter_vibes_mod := 1 + 0.2 * batterVibes
  let pitcher_vibes_mod := 1 + 0.2 * pitcherVibes
  if strike then
    let combined := contact_strike_combined batter batterVibes
    if combined < 0 then none
    else
      let ruth := pitcher.ruthlessness * pitcher_vibes_mod
      some (min (0.78 - 0.08 * ruth + 0.16 * ballpark_sum + 0.17 * powf12 combined) 0.9)
  else
    let path := max ((1 - batter.patheticism) * batter_vibes_mod) 0
    let ruth := pitcher.ruthlessness * pitcher_vibes_mod
    some (min (0.4 - 0.1 * ruth + 0.35 * powf15 path + 0.14 * ballpark_sum) 1)

/-- `roll_contact` (`src/sim.rs`): `draw < threshold`, `false` for every
draw when the threshold is NaN. -/
def roll_contact (powf12 powf15 : ℚ → ℚ) (pitcher batter : Player)
    (pitcherVibes batterVibes : ℚ) (strike : Bool) (draw : ℚ) : Bool :=
  match roll_contact_threshold powf12 powf15 pitcher batter pitcherVibes batterVibes strike with
  | none => false
  | some t => draw < t

/-! ## Player generation and batter/pitcher resolution (`src/player.rs`,
`src/sim.rs`, `src/id.rs`)

`PlayerId::new()` is `Uuid::new_v4()` — a draw from an external entropy
source, not from the seeded generator — so the fresh identifier is an
explicit `freshId` input below. -/

/-- `Player::generate_with_name`: 26 attribute draws in declaration order,
then the discrete choices.  `sim.rs` calls a two-argument variant whose
body is not among the source files; this follows `player.rs`'s version with
the pool-bearing database fields absent, so the ritual is chosen from an
empty pool (still consuming one draw) and falls back to the default, as
`choose(..).unwrap_or_default()` does. -/
def Player.generate_with_name (rng : Rng) (name : String) (freshId : PlayerId) :
    Player × Rng :=
  let (thwackability, rng) := rng.next_f64
  let (moxie, rng) := rng.next_f64
  let (divinity, rng) := rng.next_f64
  let (musclitude, rng) := rng.next_f64
  let (patheticism, rng) := rng.next_f64
  let (buoyancy, rng) := rng.next_f64
  let (base_thirst, rng) := rng.next_f64
  let (laserlikeness, rng) := rng.next_f64
  let (ground_friction, rng) := rng.next_f64
  let (continuation, rng) := rng.next_f64
  let (indulgence, rng) := rng.next_f64
  let (martyrdom, rng) := rng.next_f64
  let (tragicness, rng) := rng.next_f64
  let (shakespearianism, rng) := rng.next_f64
  let (suppression, rng) := rng.next_f64
  let (unthwackability, rng) := rng.next_f64
  let (coldness, rng) := rng.next_f64
  let (overpowerment, rng) := rng.next_f64
  let (ruthlessness, rng) := rng.next_f64
  let (omniscience, rng) := rng.next_f64
  let (tenaciousness, rng) := rng.next_f64
  let (watchfulness, rng) := rng.next_f64
  let (anticapitalism, rng) := rng.next_f64
  let (chasiness, rng) := rng.next_f64
  let (pressurization, rng) := rng.next_f64
  let (cinnamon, rng) := rng.next_f64
  let (soul, rng) := rng.choose (List.range' 2 8)
  let (peanut_allergy, rng) := rng.choose [true, false]
  let (fate, rng) := rng.choose (List.range 100)
  let (ritual, rng) := rng.choose ([] : List String)
  let (blood, rng) := rng.choose (List.range 13)
  let (coffee, rng) := rng.choose (List.range 13)
  ({ id := freshId, name := name, deceased := false,
     thwackability := thwackability, moxie := moxie, divinity := divinity,
     musclitude := musclitude, patheticism := patheticism, buoyancy := buoyancy,
     base_thirst := base_thirst, laserlikeness := laserlikeness,
     ground_friction := ground_friction, continuation := continuation,
     indulgence := indulgence, martyrdom := martyrdom, tragicness := tragicness,
     shakespearianism := shakespearianism, suppression := suppression,
     unthwackability := unthwackability, coldness := coldness,
     overpowerment := overpowerment, ruthlessness := ruthlessness,
     omniscience := omniscience, tenaciousness := tenaciousness,
     watchfulness := watchfulness, anticapitalism := anticapitalism,
     chasiness := chasiness, pressurization := pressurization, cinnamon := cinnamon,
     soul := soul.getD 0, peanut_allergy := peanut_allergy.getD false,
     fate := fate.getD 0, ritual := ritual.getD "", blood := blood.getD 0,
     coffee := coffee.getD 0 }, rng)

/-- `Game::get_pitcher` via the `next_in_order!` macro: reuse the resolved
pitcher slot if present; else pull from the fielding team's rotation at its
`rotation_slot` (falling back to the first entry when the cursor overruns);
else generate a placeholder "Pitching Machine", insert it into the player
map, and push it onto the rotation.  Either way the team's `rotation_slot`
is set to the first index of the resolved player in the rotation, and the
game's pitcher slot is filled. -/
def Game.get_pitcher (g : Game) (db : Database) (rng : Rng) (freshId : PlayerId) :
    PlayerId × Game × Database × Rng :=
  let sel := g.inning.fielding
  let gt := g.teams.select sel
  match gt.pitcher with
  | some p => (p, g, db, rng)
  | none =>
      let team := db.loadTeam gt.id
      let pos := team.rotation_slot
      match (team.rotation.get? pos).orElse (fun _ => team.rotation.head?) with
      | some player =>
          let db := db.modifyTeam gt.id
            (fun t => { t with rotation_slot := t.rotation.indexOf player })
          let teams := g.teams.update sel (fun d => { d with pitcher := some player })
          (player, { g with teams := teams }, db, rng)
      | none =>
          let gen := Player.generate_with_name rng "Pitching Machine" freshId
          let db := db.insertPlayer freshId gen.1
          let db := db.modifyTeam gt.id
            (fun t => { t with rotation := t.rotation ++ [freshId] })
          let db := db.modifyTeam gt.id
            (fun t => { t with rotation_slot := t.rotation.indexOf freshId })
          let teams := g.teams.update sel (fun d => { d with pitcher := some freshId })
          (freshId, { g with teams := teams }, db, gen.2)

/-- `Game::get_batter` via the `next_in_order!` macro: if an at-bat is in
progress, continue with it unchanged (`Sum.inl`, no announcement and no
state change); else resolve a batter from the batting team's lineup at the
game-team's `lineup_slot` (falling back to the first entry, else a
generated "Batting Machine"), record the slot index, set the at-bat, and
break with the announcement string (`Sum.inr`). -/
def Game.get_batter (g : Game) (db : Database) (rng : Rng) (freshId : PlayerId) :
    (PlayerId ⊕ String) × Game × Database × Rng :=
  match g.at_bat with
  | some p => (Sum.inl p, g, db, rng)
  | none =>
      let sel := g.inning.batting
      let gt := g.teams.select sel
      let team := db.loadTeam gt.id
      let pos := gt.lineup_slot
      match (team.lineup.get? pos).orElse (fun _ => team.lineup.head?) with
      | some player =>
          let teams := g.teams.update sel
            (fun d => { d with lineup_slot := (db.loadTeam gt.id).lineup.indexOf player })
          let g := { g with teams := teams, at_bat := some player }
          (Sum.inr ((db.loadPlayer player).name ++ " batting for the "
            ++ (db.loadTeam gt.id).nickname ++ "."), g, db, rng)
      | none =>
          let gen := Player.generate_with_name rng "Batting Machine" freshId
          let db := db.insertPlayer freshId gen.1
          let db := db.modifyTeam gt.id
            (fun t => { t with lineup := t.lineup ++ [freshId] })
          let teams := g.teams.update sel
            (fun d => { d with lineup_slot := (db.loadTeam gt.id).lineup.indexOf freshId })
          let g := { g with teams := teams, at_bat := some freshId }
          (Sum.inr ((db.loadPlayer freshId).name ++ " batting for the "
            ++ (db.loadTeam gt.id).nickname ++ "."), g, db, gen.2)

/-! ## Concrete fixtures for the evaluations below -/

/-- A batter fixture. -/
def pAlice : Player := { (default : Player) with id := 11, name := "Alice" }

/-- A runner fixture. -/
def pBob : Player := { (default : Player) with id := 12, name := "Bob" }

/-- The away team fixture. -/
def tAway : Team :=
  { id := 21, location := "Away", nickname := "Avocados",
    lineup := [11], rotation := [12], shadows := [], rotation_slot := 0 }

/-- The home team fixture. -/
def tHome : Team :=
  { id := 22, location := "Home", nickname := "Hippos",
    lineup := [13], rotation := [14], shadows := [], rotation_slot := 0 }

/-- A home team whose rotation is empty (placeholder-generation path). -/
def tEmptyRot : Team :=
  { id := 23, location := "Null", nickname := "Nulls",
    lineup := [13], rotation := [], shadows := [], rotation_slot := 0 }

/-- A player fixture for the home lineup. -/
def pCarol : Player := { (default : Player) with id := 13, name := "Carol" }

/-- A player fixture for the home rotation. -/
def pDave : Player := { (default : Player) with id := 14, name := "Dave" }

/-- The database fixture. -/
def dbT : Database :=
  { date := ⟨1, 1⟩, teams := [(21, tAway), (22, tHome)],
    players := [(11, pAlice), (12, pBob), (13, pCarol), (14, pDave)],
    games_today := [] }

/-- A database whose home team has an empty rotation. -/
def dbEmptyRot : Database :=
  { date := ⟨1, 1⟩, teams := [(22, tHome), (23, tEmptyRot)],
    players := [(13, pCarol), (14, pDave)],
    games_today := [] }

/-- An in-progress game fixture (top of the 1st, Alice at bat). -/
def gT : Game :=
  { id := 31, winner := none, last_update := "",
    teams :=
      { away := { id := 21, runs := 0, runs_by_inning := [], pitcher := none, lineup_slot := 0 },
        home := { id := 22, runs := 0, runs_by_inning := [], pitcher := none, lineup_slot := 0 } },
    inning := Inning.Top 1, at_bat := some 11,
    balls := 0, strikes := 0, outs := 0, baserunners := [] }

/-- A game against the empty-rotation home team (so the away half-inning
must generate a placeholder pitcher). -/
def gEmptyRot : Game :=
  { gT with teams :=
      { away := { id := 22, runs := 0, runs_by_inning := [], pitcher := none, lineup_slot := 0 },
        home := { id := 23, runs := 0, runs_by_inning := [], pitcher := none, lineup_slot := 0 } } }

/-- A game in the middle of the 9th with the home team ahead. -/
def gOver : Game :=
  { gT with inning := Inning.Mid 9,
            teams :=
              { away := { id := 21, runs := 0, runs_by_inning := [], pitcher := none,
                          lineup_slot := 0 },
                home := { id := 22, runs := 1, runs_by_inning := [], pitcher := none,
                          lineup_slot := 0 } } }

/-- An RNG fixture with a 40-word literal buffer. -/
def rngT : Rng :=
  ⟨(1, 2), (List.range 40).map (fun i => i + 5)⟩

/-- A batter fixture whose attributes make the out-of-zone swing "combined"
term and the in-zone contact "combined" term both negative. -/
def pNeg : Player :=
  { (default : Player) with id := 41, name := "Neg", moxie := 1, patheticism := 0.5 }

end Simx

attribute [local semireducible] Rat.add Rat.mul Rat.sub Rat.inv Rat.ofScientific

namespace Simx

/-- The raw words consumed at positions 46 through 71 by the seeded
generator of the `sixpack` test, computed by unfolding the embedding. -/
theorem seeded_sixpack_words :
    ((Rng.seeded 2935246629125674131 766864515362452477).drawWordsN 72).drop 46
      = [2238454636035776, 2410927412325949, 3513427770222094, 4268450025560001, 2446514702027994, 412012687071492, 614171596193628, 1081804570202223, 3460944162556707, 799592360107419, 4168921291042655, 2131114304290565, 2365260542847797, 2439065467008646, 264941508177360, 336313435195170, 2302427074018243, 187222782070911, 2998379909694975, 214923263865478, 1004779478929536, 1963715609405075, 2086559604228050, 2178137036855253, 3851240181346738, 1207570265267137] := by
  set_option maxRecDepth 200000 in
  simp [Rng.seeded, Rng.drawWordsN, Rng.nextWord, next_buf, next_bufAux, xsStep, U64]

/-- Each drawn value is the corresponding raw word divided by `2 ^ 52`. -/
theorem drawN_eq_map_drawWordsN (n : ℕ) :
    ∀ r : Rng, r.drawN n = (r.drawWordsN n).map (fun (w : ℕ) => (w : ℚ) / ((2 ^ 52 : ℕ) : ℚ)) := by
  induction n with
  | zero => intro r; simp [Rng.drawN, Rng.drawWordsN]
  | succ n ih => intro r; simp [Rng.drawN, Rng.drawWordsN, Rng.next_f64, ih]

/-- The 26 raw words, divided by `2 ^ 52`, are bit-for-bit the doubles the
`sixpack` test publishes. -/
theorem sixpack_words_are_published_doubles :
    ([2238454636035776, 2410927412325949, 3513427770222094, 4268450025560001, 2446514702027994, 412012687071492, 614171596193628, 1081804570202223, 3460944162556707, 799592360107419, 4168921291042655, 2131114304290565, 2365260542847797, 2439065467008646, 264941508177360, 336313435195170, 2302427074018243, 187222782070911, 2998379909694975, 214923263865478, 1004779478929536, 1963715609405075, 2086559604228050, 2178137036855253, 3851240181346738, 1207570265267137] : List ℕ).map (fun (w : ℕ) => (w : ℚ) / ((2 ^ 52 : ℕ) : ℚ))
      = sixpackDoubles.map roundF64 := by
  set_option maxRecDepth 3000 in decide

/-- C4: the seeded generator, after skipping 46 draws, reproduces the
published 26-double sequence bit-for-bit. -/
theorem rng_sixpack_reproduces_published_sequence :
    ((Rng.seeded 2935246629125674131 766864515362452477).drawN 72).drop 46
      = sixpackDoubles.map roundF64 := by
  have h1 : ((Rng.seeded 2935246629125674131 766864515362452477).drawN 72).drop 46
      = (((Rng.seeded 2935246629125674131 766864515362452477).drawWordsN 72).map
          (fun (w : ℕ) => ((w : ℚ) / ((2 ^ 52 : ℕ) : ℚ)))).drop 46 := by
    rw [drawN_eq_map_drawWordsN]
  have h2 := (List.map_drop (fun (w : ℕ) => ((w : ℚ) / ((2 ^ 52 : ℕ) : ℚ)))
    ((Rng.seeded 2935246629125674131 766864515362452477).drawWordsN 72) 46).symm
  rw [h1, h2, seeded_sixpack_words, sixpack_words_are_published_doubles]

end Simx

namespace Simx

/-- C1: on a walk and on a strikeout the at-bat is cleared, but the ball
and strike counts are NOT reset to zero: after the 4th ball the balls stand
at 4 with strikes untouched, and after a 3rd strike that is not the third
out the strikes stand at 3 with balls untouched.  Only `handle_out` on the
third out resets the count. -/
theorem walk_and_strikeout_leave_count_unreset :
    ((({ gT with balls := 3, strikes := 1 }).handle_ball pAlice dbT).1.balls = 4
      ∧ (({ gT with balls := 3, strikes := 1 }).handle_ball pAlice dbT).1.strikes = 1
      ∧ (({ gT with balls := 3, strikes := 1 }).handle_ball pAlice dbT).1.at_bat = none
      ∧ (({ gT with balls := 3, strikes := 1 }).handle_ball pAlice dbT).2
          = "Alice draws a walk.")
    ∧ ((({ gT with balls := 1, strikes := 2 }).handle_strike pAlice "looking").1.strikes = 3
      ∧ (({ gT with balls := 1, strikes := 2 }).handle_strike pAlice "looking").1.balls = 1
      ∧ (({ gT with balls := 1, strikes := 2 }).handle_strike pAlice "looking").1.outs = 1
      ∧ (({ gT with balls := 1, strikes := 2 }).handle_strike pAlice "looking").1.at_bat
          = none) := by
  decide

/-- C2: `handle_home_run` adds only the number of *baserunners* to the
batting team — the batter is not counted.  With the bases empty a home run
adds 0 runs and announces a "0-run home run"; with exactly one runner on it
adds 1 run and announces "solo". -/
theorem home_run_scores_only_runners :
    ((gT.handle_home_run pAlice).1.teams.away.runs = 0
      ∧ (gT.handle_home_run pAlice).2 = "Alice hits a 0-run home run!")
    ∧ ((({ gT with baserunners := [(12, 1)] }).handle_home_run pAlice).1.teams.away.runs = 1
      ∧ (({ gT with baserunners := [(12, 1)] }).handle_home_run pAlice).2
          = "Alice hits a solo home run!")
    ∧ (({ gT with baserunners := [(12, 1)] }).handle_home_run pAlice).1.baserunners = [] := by
  decide

end Simx

namespace Simx

/-- C8: in `roll_swing` on a non-strike pitch and in `roll_contact` on a
strike, a negative "combined" term makes the threshold NaN (modelled
`none`), and `draw < NaN` is false for every draw, so the roll returns
`false` and the outcome is suppressed — for every `powf` oracle, every
pair of players, every vibes value, and every draw. -/
theorem nan_threshold_suppresses_swing_and_contact
    (powf15 powf12 powf15c : ℚ → ℚ) (pitcher batter : Player)
    (pitcherVibes batterVibes draw : ℚ)
    (hswing : swing_ball_combined pitcher batter pitcherVibes batterVibes < 0)
    (hcontact : contact_strike_combined batter batterVibes < 0) :
    roll_swing_threshold powf15 pitcher batter pitcherVibes batterVibes false = none
      ∧ roll_swing powf15 pitcher batter pitcherVibes batterVibes false draw = false
      ∧ roll_contact_threshold powf12 powf15c pitcher batter pitcherVibes batterVibes true = none
      ∧ roll_contact powf12 powf15c pitcher batter pitcherVibes batterVibes true draw = false := by
  have h1 : roll_swing_threshold powf15 pitcher batter pitcherVibes batterVibes false = none := by
    simp [roll_swing_threshold, hswing]
  have h2 : roll_contact_threshold powf12 powf15c pitcher batter pitcherVibes batterVibes true
      = none := by
    simp [roll_contact_threshold, hcontact]
  refine ⟨h1, ?_, h2, ?_⟩
  · simp [roll_swing, h1]
  · simp [roll_contact, h2]

/-- Witness for C8: a concrete pitcher/batter pair whose combined terms are
negative, suppressing both rolls. -/
theorem nan_threshold_suppresses_swing_and_contact_witness :
    (swing_ball_combined (default : Player) pNeg 0 0 < 0)
    ∧ (contact_strike_combined pNeg 0 < 0)
    ∧ (roll_swing_threshold (fun x => x) (default : Player) pNeg 0 0 false = none
       ∧ roll_swing (fun x => x) (default : Player) pNeg 0 0 false 0.5 = false
       ∧ roll_contact_threshold (fun x => x) (fun x => x) (default : Player) pNeg 0 0 true = none
       ∧ roll_contact (fun x => x) (fun x => x) (default : Player) pNeg 0 0 true 0.5 = false) :=
  ⟨by decide, by decide,
    nan_threshold_suppresses_swing_and_contact (fun x => x) (fun x => x) (fun x => x)
      (default : Player) pNeg 0 0 0.5 (by decide) (by decide)⟩

end Simx

namespace Simx

/-- The advance loop keeps exactly the runners whose new base is below
home, each advanced by the hit's base count, and the number of scorers is
the number of runners reaching home. -/
theorem baseHitAdvance_spec (bases : ℕ) (l : List (PlayerId × ℕ)) :
    (baseHitAdvance bases l).1
        = (l.map (fun rb => (rb.1, (rb.2 + bases) % U8))).filter (fun rb => rb.2 < 4)
      ∧ (baseHitAdvance bases l).2.length
        = (l.map (fun rb => (rb.1, (rb.2 + bases) % U8))).countP (fun rb => 4 ≤ rb.2) := by
  induction l with
  | nil => simp [baseHitAdvance]
  | cons head rest ih =>
      obtain ⟨runner, base⟩ := head
      by_cases h : 4 ≤ (base + bases) % U8
      · have h' : ¬ ((base + bases) % U8 < 4) := by omega
        simp [baseHitAdvance, h, h', ih.1, ih.2, List.countP_cons]
      · have h' : (base + bases) % U8 < 4 := by omega
        simp [baseHitAdvance, h, h', ih.1, ih.2, List.countP_cons]

/-- C10: a base hit leaves the batter at bat with the same count — the
at-bat, balls, strikes, outs, both lineup cursors, and the inning are all
unchanged, the batter is not added to the baserunners (the new baserunners
are exactly the surviving pre-existing runners, advanced by the hit's base
count), the batting team scores one run per runner reaching home, and on the
next tick `get_batter` continues with the same batter and changes
nothing. -/
theorem base_hit_preserves_batter_and_count (g : Game) (batter : Player) (db : Database)
    (bases : ℕ) (rng : Rng) (freshId : PlayerId) :
    ((g.handle_base_hit batter db bases).1.at_bat = g.at_bat)
      ∧ ((g.handle_base_hit batter db bases).1.balls = g.balls)
      ∧ ((g.handle_base_hit batter db bases).1.strikes = g.strikes)
      ∧ ((g.handle_base_hit batter db bases).1.outs = g.outs)
      ∧ ((g.handle_base_hit batter db bases).1.teams.away.lineup_slot
          = g.teams.away.lineup_slot)
      ∧ ((g.handle_base_hit batter db bases).1.teams.home.lineup_slot
          = g.teams.home.lineup_slot)
      ∧ ((g.handle_base_hit batter db bases).1.inning = g.inning)
      ∧ ((g.handle_base_hit batter db bases).1.baserunners
          = (g.baserunners.map (fun rb => (rb.1, (rb.2 + bases) % U8))).filter
              (fun rb => rb.2 < 4))
      ∧ (((g.handle_base_hit batter db bases).1.teams.select g.inning.batting).runs
          = ((g.teams.select g.inning.batting).runs
              + (g.baserunners.map (fun rb => (rb.1, (rb.2 + bases) % U8))).countP
                  (fun rb => 4 ≤ rb.2)) % U16)
      ∧ (∀ p, g.at_bat = some p →
          ((g.handle_base_hit batter db bases).1.get_batter db rng freshId)
            = (Sum.inl p, (g.handle_base_hit batter db bases).1, db, rng)) := by
  obtain ⟨hadv, hcount⟩ := baseHitAdvance_spec bases g.baserunners
  have hslot : ∀ s, ((g.handle_base_hit batter db bases).1.teams.select s).lineup_slot
      = (g.teams.select s).lineup_slot := by
    intro s
    cases s <;> cases hb : g.inning.batting <;>
      simp [Game.handle_base_hit, AwayHome.update, AwayHome.select, hb]
  refine ⟨?_, ?_, ?_, ?_, ?_, ?_, ?_, ?_, ?_, ?_⟩
  · simp [Game.handle_base_hit]
  · simp [Game.handle_base_hit]
  · simp [Game.handle_base_hit]
  · simp [Game.handle_base_hit]
  · have h := hslot TeamSelect.Away; simpa [AwayHome.select] using h
  · have h := hslot TeamSelect.Home; simpa [AwayHome.select] using h
  · simp [Game.handle_base_hit]
  · simp [Game.handle_base_hit, hadv]
  · cases hb : g.inning.batting <;>
      simp [Game.handle_base_hit, AwayHome.update, AwayHome.select, hb, hcount]
  · intro p hp
    have hab : (g.handle_base_hit batter db bases).1.at_bat = some p := by
      simp [Game.handle_base_hit, hp]
    simp [Game.get_batter, hab]

/-- Witness for C10 at a concrete double with runners on first and third. -/
theorem base_hit_preserves_batter_and_count_witness :
    ({ gT with baserunners := [(12, 1), (13, 3)] } : Game).at_bat = some 11
      ∧ (({ gT with baserunners := [(12, 1), (13, 3)] } : Game).handle_base_hit
            pAlice dbT 2).1.at_bat = some 11
      ∧ (({ gT with baserunners := [(12, 1), (13, 3)] } : Game).handle_base_hit
            pAlice dbT 2).1.baserunners = [(12, 3)]
      ∧ ((({ gT with baserunners := [(12, 1), (13, 3)] } : Game).handle_base_hit
            pAlice dbT 2).1.get_batter dbT rngT 99)
          = (Sum.inl 11,
              (({ gT with baserunners := [(12, 1), (13, 3)] } : Game).handle_base_hit
                pAlice dbT 2).1, dbT, rngT) := by
  refine ⟨by decide, by decide, by decide, ?_⟩
  exact (base_hit_preserves_batter_and_count
    ({ gT with baserunners := [(12, 1), (13, 3)] }) pAlice dbT 2 rngT 99).2.2.2.2.2.2.2.2.2
    11 (by decide)

end Simx

namespace Simx

/-- `List.contains` agrees with membership on `ℕ`. -/
theorem natContains_iff {l : List ℕ} {a : ℕ} : l.contains a = true ↔ a ∈ l :=
  List.elem_iff

/-- A runner whose stepped base is below home survives the walk
force-advance at that stepped base. -/
theorem walkAdvance_mem (occupied : List ℕ) (l : List (PlayerId × ℕ)) (r : PlayerId) (b : ℕ)
    (hmem : (r, b) ∈ l) (hlt : walkStep occupied b < 4) :
    (r, walkStep occupied b) ∈ (walkAdvance occupied l).1 := by
  induction l with
  | nil => cases hmem
  | cons head rest ih =>
      rcases List.mem_cons.mp hmem with heq | hmem'
      · subst heq
        simp only [walkAdvance]
        rw [if_neg (by omega)]
        exact List.mem_cons_self _ _
      · have hrec := ih hmem'
        obtain ⟨runner, base⟩ := head
        simp only [walkAdvance]
        by_cases h4 : 4 ≤ walkStep occupied base
        · rw [if_pos h4]; exact hrec
        · rw [if_neg h4]; exact List.mem_cons_of_mem _ hrec

/-- With first and second base occupied and every runner on bases 1..3, the
walk force-advance moves every runner up one base: the surviving bases are
the old ones advanced with base 3 removed, and the scorers are exactly the
runners from base 3. -/
theorem walkAdvance_loaded (occupied : List ℕ) (l : List (PlayerId × ℕ))
    (h1 : occupied.contains 1 = true) (h2 : occupied.contains 2 = true)
    (hb : ∀ rb ∈ l, (rb : PlayerId × ℕ).2 = 1 ∨ rb.2 = 2 ∨ rb.2 = 3) :
    ((walkAdvance occupied l).1.map (fun rb => rb.2))
        = (l.map (fun rb => rb.2)).filterMap
            (fun b => if b = 3 then none else some (b + 1))
      ∧ (walkAdvance occupied l).2.length = (l.map (fun rb => rb.2)).count 3 := by
  have e1 : walkStep occupied 1 = 2 := by simp [walkStep, U8, List.range']
  have e2 : walkStep occupied 2 = 3 := by
    simp [walkStep, U8, List.range', natContains_iff.mp h1]
  have e3 : walkStep occupied 3 = 4 := by
    simp [walkStep, U8, List.range', natContains_iff.mp h1, natContains_iff.mp h2]
  induction l with
  | nil => simp [walkAdvance]
  | cons head rest ih =>
      obtain ⟨runner, base⟩ := head
      have hbase := hb (runner, base) (List.mem_cons_self _ _)
      have ihr := ih (fun rb h => hb rb (List.mem_cons_of_mem _ h))
      rcases hbase with h | h | h <;> subst h <;>
        simp [walkAdvance, e1, e2, e3, ihr.1, ihr.2, List.count_cons]

/-- C3: on the 4th ball, the batter is placed on first; a runner below home
with some base strictly between first and their own unoccupied stays put; a
runner with every such base occupied advances exactly one base; and with
the bases loaded (bases 1, 2, 3 all occupied, one runner each) exactly one
run scores and the occupied bases are again exactly 1, 2, 3. -/
theorem walk_force_advance (g : Game) (batter : Player) (db : Database) (hb : g.balls = 3) :
    ((batter.id, 1) ∈ (g.handle_ball batter db).1.baserunners)
      ∧ (∀ r b, (r, b) ∈ g.baserunners → b < 4 →
          (∃ b', 1 ≤ b' ∧ b' < b ∧ b' ∉ g.bases_occupied) →
          (r, b) ∈ (g.handle_ball batter db).1.baserunners)
      ∧ (∀ r b, (r, b) ∈ g.baserunners → b + 1 < 4 →
          (∀ b', 1 ≤ b' → b' < b → b' ∈ g.bases_occupied) →
          (r, b + 1) ∈ (g.handle_ball batter db).1.baserunners)
      ∧ ((g.baserunners.map (fun rb => rb.2)).Perm [1, 2, 3] →
          ((g.handle_ball batter db).1.teams.select g.inning.batting).runs
              = ((g.teams.select g.inning.batting).runs + 1) % U16
            ∧ ((g.handle_ball batter db).1.baserunners.map (fun rb => rb.2)).Perm
                  [1, 2, 3]) := by
  have h4 : 4 ≤ (g.balls + 1) % U8 := by rw [hb]; decide
  have hres : (g.handle_ball batter db).1.baserunners
      = (walkAdvance g.bases_occupied g.baserunners).1 ++ [(batter.id, 1)] := by
    simp [Game.handle_ball, h4, Game.bases_occupied]
  have hruns : ((g.handle_ball batter db).1.teams.select g.inning.batting).runs
      = ((g.teams.select g.inning.batting).runs
          + (walkAdvance g.bases_occupied g.baserunners).2.length) % U16 := by
    cases hbat : g.inning.batting <;>
      simp [Game.handle_ball, h4, Game.bases_occupied, hbat, AwayHome.update, AwayHome.select]
  refine ⟨?_, ?_, ?_, ?_⟩
  · rw [hres]; simp
  · intro r b hmem hlt hgap
    have hstep : walkStep g.bases_occupied b = b := by
      rw [walkStep, if_neg]
      intro hall
      obtain ⟨bp, hbp1, hbp2, hbp3⟩ := hgap
      have hin : bp ∈ List.range' 1 (b - 1) := List.mem_range'_1.mpr ⟨hbp1, by omega⟩
      exact hbp3 (natContains_iff.mp ((List.all_eq_true.mp hall) bp hin))
    rw [hres]
    apply List.mem_append_left
    have := walkAdvance_mem g.bases_occupied g.baserunners r b hmem (by omega)
    rwa [hstep] at this
  · intro r b hmem hlt hall
    have hstep : walkStep g.bases_occupied b = b + 1 := by
      rw [walkStep, if_pos, Nat.mod_eq_of_lt (by simp [U8]; omega)]
      rw [List.all_eq_true]
      intro x hx
      have hx' := List.mem_range'_1.mp hx
      exact natContains_iff.mpr (hall x hx'.1 (by omega))
    rw [hres]
    apply List.mem_append_left
    have := walkAdvance_mem g.bases_occupied g.baserunners r b hmem (by omega)
    rwa [hstep] at this
  · intro hperm
    have h1 : g.bases_occupied.contains 1 = true := by
      rw [natContains_iff, Game.bases_occupied]
      exact (hperm.mem_iff).mpr (by decide)
    have h2 : g.bases_occupied.contains 2 = true := by
      rw [natContains_iff, Game.bases_occupied]
      exact (hperm.mem_iff).mpr (by decide)
    have hball : ∀ rb ∈ g.baserunners, (rb : PlayerId × ℕ).2 = 1 ∨ rb.2 = 2 ∨ rb.2 = 3 := by
      intro rb hrb
      have : rb.2 ∈ [1, 2, 3] :=
        (hperm.mem_iff).mp (List.mem_map_of_mem (fun x => x.2) hrb)
      simpa using this
    obtain ⟨hmap, hlen⟩ := walkAdvance_loaded g.bases_occupied g.baserunners h1 h2 hball
    constructor
    · rw [hruns, hlen, hperm.count_eq 3]
      have hc : List.count 3 [1, 2, 3] = 1 := by decide
      rw [hc]
    · rw [hres]
      have hsplit : ((walkAdvance g.bases_occupied g.baserunners).1
            ++ [(batter.id, 1)]).map (fun rb : PlayerId × ℕ => rb.2)
          = (walkAdvance g.bases_occupied g.baserunners).1.map
              (fun rb : PlayerId × ℕ => rb.2) ++ [1] := by
        simp
      rw [hsplit, hmap]
      have hperm2 := hperm.filterMap (fun b => if b = 3 then none else some (b + 1))
      have hfm : (List.filterMap (fun b => if b = 3 then none else some (b + 1)) [1, 2, 3])
          = [2, 3] := by decide
      rw [hfm] at hperm2
      exact (hperm2.append (List.Perm.refl [1])).trans (by decide)

end Simx

namespace Simx

/-- Witness for C3: a bases-loaded game with a 3-ball count — the batter
reaches first and the occupied bases are again 1, 2, 3. -/
theorem walk_force_advance_witness :
    (({ gT with balls := 3, baserunners := [(12, 1), (13, 2), (14, 3)] } : Game).balls = 3)
    ∧ ((pAlice.id, 1) ∈
        (({ gT with balls := 3, baserunners := [(12, 1), (13, 2), (14, 3)] } : Game).handle_ball
          pAlice dbT).1.baserunners)
    ∧ (((({ gT with balls := 3, baserunners := [(12, 1), (13, 2), (14, 3)] } : Game).handle_ball
          pAlice dbT).1.baserunners.map (fun rb => rb.2)).Perm [1, 2, 3]) :=
  ⟨rfl,
    (walk_force_advance _ pAlice dbT rfl).1,
    ((walk_force_advance _ pAlice dbT rfl).2.2.2 (by decide)).2⟩

end Simx

namespace Simx

/-- Counterexample for C5: from one and the same simulation state (same
game, same database, same RNG words and buffer), resolving the pitcher on
the empty-rotation path gives different results for different values of the
externally drawn fresh identifier (`PlayerId::new()` is `Uuid::new_v4()`,
an OS-entropy draw, not the seeded generator) — `tick` is therefore not a
function of the explicit simulation state on that path. -/
theorem get_pitcher_depends_on_fresh_id :
    gEmptyRot.get_pitcher dbEmptyRot rngT 101 ≠ gEmptyRot.get_pitcher dbEmptyRot rngT 102 := by
  intro h
  have h1 := congrArg (fun r => r.1) h
  simp only [] at h1
  have : (gEmptyRot.get_pitcher dbEmptyRot rngT 101).1 = 101 := by decide
  have h2 : (gEmptyRot.get_pitcher dbEmptyRot rngT 102).1 = 102 := by decide
  rw [this, h2] at h1
  cases h1

/-- C5 (amended): whenever no placeholder player is generated — the pitcher
slot is already resolved, or the fielding team's rotation is nonempty — the
pitcher resolution step is independent of the external fresh-identifier
draw, i.e. deterministic in the explicit simulation state. -/
theorem get_pitcher_oracle_independent (g : Game) (db : Database) (rng : Rng)
    (id1 id2 : PlayerId)
    (h : (g.teams.select g.inning.fielding).pitcher ≠ none
        ∨ (db.loadTeam (g.teams.select g.inning.fielding).id).rotation ≠ []) :
    g.get_pitcher db rng id1 = g.get_pitcher db rng id2 := by
  simp only [Game.get_pitcher]
  cases hp : (g.teams.select g.inning.fielding).pitcher with
  | some p => rfl
  | none =>
      rcases h with h | h
      · exact absurd hp h
      · cases hro : (db.loadTeam (g.teams.select g.inning.fielding).id).rotation.get?
            (db.loadTeam (g.teams.select g.inning.fielding).id).rotation_slot with
        | some v => rfl
        | none =>
            cases hh : (db.loadTeam (g.teams.select g.inning.fielding).id).rotation.head? with
            | some w => rfl
            | none => exact absurd (List.head?_eq_none_iff.mp hh) h

/-- Witness for the amended C5 at a nonempty rotation. -/
theorem get_pitcher_oracle_independent_witness :
    ((dbT.loadTeam (gT.teams.select gT.inning.fielding).id).rotation ≠ [])
    ∧ gT.get_pitcher dbT rngT 101 = gT.get_pitcher dbT rngT 102 :=
  ⟨by decide,
    get_pitcher_oracle_independent gT dbT rngT 101 102 (Or.inr (by decide))⟩

end Simx

namespace Simx

/-- `find?` over the key-preserving modification map: the found entry is the
original one with the value transformed. -/
theorem find?_map_modify (l : List (TeamId × Team)) (id : TeamId) (f : Team → Team) :
    (l.map (fun kv => if kv.1 = id then (kv.1, f kv.2) else kv)).find?
        (fun kv => kv.1 = id)
      = (l.find? (fun kv => kv.1 = id)).map (fun kv => (kv.1, f kv.2)) := by
  induction l with
  | nil => rfl
  | cons kv rest ih =>
      by_cases hk : kv.1 = id
      · simp [List.find?_cons, hk]
      · simp [List.find?_cons, hk, ih]

/-- `find?` for a different key ignores the modification map. -/
theorem find?_map_modify_ne (l : List (TeamId × Team)) (id id' : TeamId) (f : Team → Team)
    (hne : id' ≠ id) :
    (l.map (fun kv => if kv.1 = id then (kv.1, f kv.2) else kv)).find?
        (fun kv => kv.1 = id')
      = l.find? (fun kv => kv.1 = id') := by
  have hii : ¬ (id = id') := fun hcontra => hne hcontra.symm
  induction l with
  | nil => rfl
  | cons kv rest ih =>
      by_cases hk : kv.1 = id
      · have hki : ¬ (kv.1 = id') := by rw [hk]; exact hii
        simp [List.find?_cons, hk, hki, hii, hne, ih]
      · by_cases hk' : kv.1 = id'
        · simp [List.find?_cons, hk, hk', hne, ih]
        · simp [List.find?_cons, hk, hk', ih]

/-- Loading the modified team returns the transformed entity. -/
theorem modifyTeam_loadTeam_same (db : Database) (id : TeamId) (f : Team → Team)
    (h : db.teamsContains id = true) :
    (db.modifyTeam id f).loadTeam id = f (db.loadTeam id) := by
  simp only [Database.modifyTeam, Database.loadTeam]
  rw [find?_map_modify]
  cases hfind : db.teams.find? (fun kv => kv.1 = id) with
  | none =>
      exfalso
      rw [Database.teamsContains, List.any_eq_true] at h
      obtain ⟨kv, hkv, hp⟩ := h
      have := List.find?_eq_none.mp hfind kv hkv
      exact this hp
  | some kv => simp

/-- Loading a different team ignores the modification. -/
theorem modifyTeam_loadTeam_other (db : Database) (id id' : TeamId) (f : Team → Team)
    (hne : id' ≠ id) :
    (db.modifyTeam id f).loadTeam id' = db.loadTeam id' := by
  simp only [Database.modifyTeam, Database.loadTeam]
  rw [find?_map_modify_ne _ _ _ _ hne]

/-- Modification does not change which teams the database contains. -/
theorem modifyTeam_teamsContains (db : Database) (id : TeamId) (f : Team → Team)
    (id' : TeamId) :
    (db.modifyTeam id f).teamsContains id' = db.teamsContains id' := by
  simp only [Database.modifyTeam, Database.teamsContains]
  induction db.teams with
  | nil => rfl
  | cons kv rest ih =>
      by_cases hk : kv.1 = id <;> simp [hk, ih]

/-- Finished games are left untouched, at their position, by the per-tick
game loop, for every step body. -/
theorem tickGames_skips_finished
    (step : Game → Rng × Database → (Game × String) × (Rng × Database)) :
    ∀ (gs : List Game) (s : Rng × Database) (i : ℕ) (g' : Game),
      gs[i]? = some g' → g'.is_finished = true →
      (Sim.tickGames step gs s).1[i]? = some g' := by
  intro gs
  induction gs with
  | nil => intro s i g' hget; simp at hget
  | cons ghead rest ih =>
      intro s i g' hget hfin
      cases i with
      | zero =>
          simp only [List.getElem?_cons_zero, Option.some.injEq] at hget
          subst hget
          simp [Sim.tickGames, hfin]
      | succ j =>
          simp only [List.getElem?_cons_succ] at hget
          simp only [Sim.tickGames]
          by_cases hf : ghead.is_finished = true
          · rw [hf, if_pos rfl]
            show (ghead :: (Sim.tickGames step rest s).1)[j + 1]? = some g'
            rw [List.getElem?_cons_succ]
            exact ih _ j g' hget hfin
          · rw [if_neg hf]
            show ({ (step ghead s).1.1 with last_update := (step ghead s).1.2 }
                :: (Sim.tickGames step rest (step ghead s).2).1)[j + 1]? = some g'
            rw [List.getElem?_cons_succ]
            exact ih _ j g' hget hfin

/-- C6: in `Mid n`/`End n` with `n ≥ 9` and the away team trailing, the
home team is declared winner; in `End n` with `n ≥ 9` and the away team
leading, the away team is declared winner; a leading away team in `Mid n`
does not end the game (nor does a tie); on game over both teams' rotation
cursors advance by one and the final score line is emitted; and the
per-tick loop never touches a finished game (so the winner, once set, is
never written again). -/
theorem game_over_rules (g : Game) (db : Database) (n : ℕ) (h9 : 9 ≤ n)
    (hA : db.teamsContains g.teams.away.id = true)
    (hH : db.teamsContains g.teams.home.id = true)
    (hNe : g.teams.away.id ≠ g.teams.home.id) :
    ((g.inning = Inning.Mid n ∨ g.inning = Inning.End n) →
      g.teams.away.runs < g.teams.home.runs →
      (g.handle_game_over db).map (fun gd => gd.1.winner) = some (some g.teams.home.id)
        ∧ (g.handle_game_over db).map
            (fun gd => (gd.2.1.loadTeam g.teams.away.id).rotation_slot)
            = some ((db.loadTeam g.teams.away.id).rotation_slot + 1)
        ∧ (g.handle_game_over db).map
            (fun gd => (gd.2.1.loadTeam g.teams.home.id).rotation_slot)
            = some ((db.loadTeam g.teams.home.id).rotation_slot + 1)
        ∧ (g.handle_game_over db).map (fun gd => gd.2.2)
            = some ("Game over. " ++ (db.loadTeam g.teams.away.id).nickname ++ " "
                ++ toString g.teams.away.runs ++ ", "
                ++ (db.loadTeam g.teams.home.id).nickname ++ " "
                ++ toString g.teams.home.runs))
    ∧ (g.inning = Inning.End n →
      g.teams.home.runs < g.teams.away.runs →
      (g.handle_game_over db).map (fun gd => gd.1.winner) = some (some g.teams.away.id)
        ∧ (g.handle_game_over db).map
            (fun gd => (gd.2.1.loadTeam g.teams.away.id).rotation_slot)
            = some ((db.loadTeam g.teams.away.id).rotation_slot + 1)
        ∧ (g.handle_game_over db).map
            (fun gd => (gd.2.1.loadTeam g.teams.home.id).rotation_slot)
            = some ((db.loadTeam g.teams.home.id).rotation_slot + 1))
    ∧ (g.inning = Inning.Mid n →
      g.teams.home.runs < g.teams.away.runs → g.handle_game_over db = none)
    ∧ (g.teams.away.runs = g.teams.home.runs → g.handle_game_over db = none)
    ∧ (∀ (step : Game → Rng × Database → (Game × String) × (Rng × Database))
        (gs : List Game) (s : Rng × Database) (i : ℕ) (g' : Game),
        gs[i]? = some g' → g'.is_finished = true →
        (Sim.tickGames step gs s).1[i]? = some g') := by
  have hAslot : ((db.modifyTeam g.teams.away.id
        (fun t => { t with rotation_slot := t.rotation_slot + 1 })).modifyTeam g.teams.home.id
        (fun t => { t with rotation_slot := t.rotation_slot + 1 })).loadTeam g.teams.away.id
      = { db.loadTeam g.teams.away.id with
          rotation_slot := (db.loadTeam g.teams.away.id).rotation_slot + 1 } := by
    rw [modifyTeam_loadTeam_other _ _ _ _ hNe, modifyTeam_loadTeam_same _ _ _ hA]
  have hHslot : ((db.modifyTeam g.teams.away.id
        (fun t => { t with rotation_slot := t.rotation_slot + 1 })).modifyTeam g.teams.home.id
        (fun t => { t with rotation_slot := t.rotation_slot + 1 })).loadTeam g.teams.home.id
      = { db.loadTeam g.teams.home.id with
          rotation_slot := (db.loadTeam g.teams.home.id).rotation_slot + 1 } := by
    rw [modifyTeam_loadTeam_same _ _ _ (by rw [modifyTeam_teamsContains]; exact hH),
      modifyTeam_loadTeam_other _ _ _ _ (fun h => hNe h.symm)]
  refine ⟨?_, ?_, ?_, ?_, tickGames_skips_finished⟩
  · intro hin hlt
    have hcmp : cmpNat g.teams.away.runs g.teams.home.runs = Ordering.lt := by
      simp [cmpNat, hlt]
    rcases hin with h | h <;>
      refine ⟨?_, ?_, ?_, ?_⟩ <;>
      simp [Game.handle_game_over, h, hcmp, h9, AwayHome.select, hAslot, hHslot]
  · intro hin hlt
    have hgt : ¬ (g.teams.away.runs < g.teams.home.runs) := by omega
    have hcmp : cmpNat g.teams.away.runs g.teams.home.runs = Ordering.gt := by
      simp [cmpNat, hlt, hgt]
    refine ⟨?_, ?_, ?_⟩ <;>
      simp [Game.handle_game_over, hin, hcmp, h9, AwayHome.select, hAslot, hHslot]
  · intro hin hlt
    have hgt : ¬ (g.teams.away.runs < g.teams.home.runs) := by omega
    have hcmp : cmpNat g.teams.away.runs g.teams.home.runs = Ordering.gt := by
      simp [cmpNat, hlt, hgt]
    simp [Game.handle_game_over, hin, hcmp]
  · intro heq
    have hcmp : cmpNat g.teams.away.runs g.teams.home.runs = Ordering.eq := by
      simp [cmpNat, heq]
    cases g.inning <;> simp [Game.handle_game_over, hcmp]

end Simx

namespace Simx

/-- Witness for C6: mid-9th, home ahead 1–0 — the home team is declared
winner immediately, without playing the bottom half. -/
theorem game_over_rules_witness :
    (9 ≤ 9)
    ∧ (dbT.teamsContains gOver.teams.away.id = true)
    ∧ (dbT.teamsContains gOver.teams.home.id = true)
    ∧ (gOver.teams.away.id ≠ gOver.teams.home.id)
    ∧ (gOver.handle_game_over dbT).map (fun gd => gd.1.winner)
        = some (some gOver.teams.home.id) :=
  ⟨by decide, by decide, by decide, by decide,
    ((game_over_rules gOver dbT 9 (by decide) (by decide) (by decide) (by decide)).1
      (Or.inl rfl) (by decide)).1⟩

end Simx

namespace Simx

/-- A team's per-entity check reports nothing exactly when its id is
non-nil and every roster reference resolves with no duplicate
membership. -/
theorem team_problems_eq_nil_iff (t : Team) (db : Database) :
    t.problems db = []
      ↔ (t.id ≠ 0
          ∧ ∀ p ∈ t.roster, db.playersContains p = true ∧ t.roster.count p = 1) := by
  unfold Team.problems
  rw [List.append_eq_nil, List.bind_eq_nil]
  constructor
  · rintro ⟨hnil, hall⟩
    refine ⟨?_, ?_⟩
    · intro h0
      rw [if_pos h0] at hnil
      cases hnil
    · intro p hp
      have := hall p (List.mem_dedup.mpr hp)
      rw [List.append_eq_nil] at this
      obtain ⟨h1, h2⟩ := this
      constructor
      · by_cases hc : db.playersContains p = true
        · exact hc
        · rw [if_neg hc] at h1; cases h1
      · by_cases hd : 1 < t.roster.count p
        · rw [if_pos hd] at h2; cases h2
        · have := List.count_pos_iff.mpr hp
          omega
  · rintro ⟨h0, hall⟩
    refine ⟨by rw [if_neg h0], ?_⟩
    intro p hp
    obtain ⟨hc, hcount⟩ := hall p (List.mem_dedup.mp hp)
    rw [List.append_eq_nil, if_pos hc, if_neg (by omega)]
    exact ⟨rfl, rfl⟩

/-- A game's per-entity check reports nothing exactly when its id is
non-nil and every team and player reference resolves. -/
theorem game_problems_eq_nil_iff (g : Game) (db : Database) :
    g.problems db = []
      ↔ (g.id ≠ 0
          ∧ (∀ t ∈ g.winner.toList ++ [g.teams.away.id, g.teams.home.id],
              db.teamsContains t = true)
          ∧ (∀ p ∈ g.at_bat.toList ++ g.baserunners.map (fun rb => rb.1)
                ++ g.teams.away.pitcher.toList ++ g.teams.home.pitcher.toList,
              db.playersContains p = true)) := by
  unfold Game.problems
  rw [List.append_eq_nil, List.append_eq_nil, List.bind_eq_nil, List.bind_eq_nil]
  constructor
  · rintro ⟨⟨hnil, hteams⟩, hplayers⟩
    refine ⟨?_, ?_, ?_⟩
    · intro h0; rw [if_pos h0] at hnil; cases hnil
    · intro t ht
      by_cases hc : db.teamsContains t = true
      · exact hc
      · have := hteams t ht; rw [if_neg hc] at this; cases this
    · intro p hp
      by_cases hc : db.playersContains p = true
      · exact hc
      · have := hplayers p hp; rw [if_neg hc] at this; cases this
  · rintro ⟨h0, hteams, hplayers⟩
    exact ⟨⟨by rw [if_neg h0], fun t ht => by rw [if_pos (hteams t ht)]⟩,
      fun p hp => by rw [if_pos (hplayers p hp)]⟩

/-- The whole consistency report is empty exactly when the §3 global
invariants hold. -/
theorem consistencyProblems_eq_nil_iff (db : Database) :
    db.consistencyProblems = [] ↔ ConsistentDb db := by
  unfold Database.consistencyProblems ConsistentDb
  rw [List.append_eq_nil, List.append_eq_nil, List.append_eq_nil, List.append_eq_nil,
    List.bind_eq_nil, List.bind_eq_nil, List.bind_eq_nil, List.bind_eq_nil, List.bind_eq_nil]
  constructor
  · rintro ⟨⟨⟨⟨k1, k2⟩, e1⟩, e2⟩, e3⟩
    refine ⟨?_, ?_, ?_, ?_⟩
    · intro kv hkv
      constructor
      · by_cases hk : kv.2.id = kv.1
        · exact hk
        · have := k1 kv hkv; rw [if_neg hk] at this; cases this
      · exact ((team_problems_eq_nil_iff kv.2 db).mp
          (List.map_eq_nil.mp (e1 kv hkv))).1
    · intro kv hkv
      constructor
      · by_cases hk : kv.2.id = kv.1
        · exact hk
        · have := k2 kv hkv; rw [if_neg hk] at this; cases this
      · have := List.map_eq_nil.mp (e2 kv hkv)
        unfold Player.problems at this
        by_cases h0 : kv.2.id = 0
        · rw [if_pos h0] at this; cases this
        · exact h0
    · intro kv hkv
      exact ((team_problems_eq_nil_iff kv.2 db).mp
        (List.map_eq_nil.mp (e1 kv hkv))).2
    · intro g hg
      exact (game_problems_eq_nil_iff g db).mp (List.map_eq_nil.mp (e3 g hg))
  · rintro ⟨ht, hp, hr, hg⟩
    refine ⟨⟨⟨⟨?_, ?_⟩, ?_⟩, ?_⟩, ?_⟩
    · intro kv hkv; rw [if_pos (ht kv hkv).1]
    · intro kv hkv; rw [if_pos (hp kv hkv).1]
    · intro kv hkv
      rw [List.map_eq_nil, team_problems_eq_nil_iff]
      exact ⟨(ht kv hkv).2, hr kv hkv⟩
    · intro kv hkv
      rw [List.map_eq_nil]
      unfold Player.problems
      rw [if_neg (hp kv hkv).2]
    · intro g hgmem
      rw [List.map_eq_nil, game_problems_eq_nil_iff]
      exact hg g hgmem

/-- C9: `check_consistency` returns `Ok` exactly when every global
invariant of §3 holds, and deserialization succeeds exactly then, failing
otherwise with the newline-joined list of problems; moreover the report is
complete — a key/id mismatch, a dangling roster reference, a duplicate
roster membership, and a dangling game team reference each contribute their
own entry to the report. -/
theorem check_consistency_complete (db : Database) :
    (db.check_consistency = Except.ok () ↔ ConsistentDb db)
    ∧ (deserialize_database db = Except.ok db ↔ ConsistentDb db)
    ∧ (¬ ConsistentDb db →
        deserialize_database db
          = Except.error (String.intercalate "\n" db.consistencyProblems))
    ∧ (∀ kv ∈ db.teams, (kv : TeamId × Team).2.id ≠ kv.1 →
        ("- team " ++ toString kv.2.id ++ ": keyed with " ++ toString kv.1)
          ∈ db.consistencyProblems)
    ∧ (∀ kv ∈ db.teams, ∀ p ∈ (kv : TeamId × Team).2.roster,
        db.playersContains p = false →
        ("- team " ++ toString kv.2.id ++ ": "
            ++ (DatabaseError.BadReference "player" p).message)
          ∈ db.consistencyProblems)
    ∧ (∀ kv ∈ db.teams, ∀ p ∈ (kv : TeamId × Team).2.roster,
        1 < (kv : TeamId × Team).2.roster.count p →
        ("- team " ++ toString kv.2.id ++ ": "
            ++ (DatabaseError.DuplicatePlayer p).message)
          ∈ db.consistencyProblems)
    ∧ (∀ g ∈ db.games_today, ∀ t ∈ g.winner.toList ++ [g.teams.away.id, g.teams.home.id],
        db.teamsContains t = false →
        ("- game " ++ toString g.id ++ ": "
            ++ (DatabaseError.BadReference "team" t).message)
          ∈ db.consistencyProblems) := by
  have hok : db.check_consistency = Except.ok () ↔ ConsistentDb db := by
    unfold Database.check_consistency
    by_cases he : db.consistencyProblems.isEmpty = true
    · rw [if_pos he]
      exact iff_of_true rfl
        ((consistencyProblems_eq_nil_iff db).mp (List.isEmpty_iff.mp he))
    · rw [if_neg he]
      constructor
      · intro h; cases h
      · intro hc
        exact absurd (List.isEmpty_iff.mpr ((consistencyProblems_eq_nil_iff db).mpr hc)) he
  refine ⟨hok, ?_, ?_, ?_, ?_, ?_, ?_⟩
  · unfold deserialize_database
    cases hcc : db.check_consistency with
    | ok u =>
        cases u
        simpa using hok.mp hcc
    | error e =>
        constructor
        · intro h; cases h
        · intro hc
          rw [hok.mpr hc] at hcc
          cases hcc
  · intro hnc
    have hne : ¬ (db.consistencyProblems.isEmpty = true) := by
      intro he
      exact hnc ((consistencyProblems_eq_nil_iff db).mp (List.isEmpty_iff.mp he))
    unfold deserialize_database Database.check_consistency
    rw [if_neg hne]
  · intro kv hkv hne
    unfold Database.consistencyProblems
    apply List.mem_append_left
    apply List.mem_append_left
    apply List.mem_append_left
    apply List.mem_append_left
    rw [List.mem_flatMap]
    exact ⟨kv, hkv, by rw [if_neg hne]; exact List.mem_singleton.mpr rfl⟩
  · intro kv hkv p hp hfalse
    have hbad : DatabaseError.BadReference "player" p ∈ kv.2.problems db := by
      unfold Team.problems
      apply List.mem_append_right
      rw [List.mem_flatMap]
      refine ⟨p, List.mem_dedup.mpr hp, ?_⟩
      apply List.mem_append_left
      rw [if_neg (by rw [hfalse]; exact Bool.false_ne_true)]
      exact List.mem_singleton.mpr rfl
    unfold Database.consistencyProblems
    apply List.mem_append_left
    apply List.mem_append_left
    apply List.mem_append_right
    rw [List.mem_flatMap]
    exact ⟨kv, hkv, List.mem_map_of_mem _ hbad⟩
  · intro kv hkv p hp hdup
    have hbad : DatabaseError.DuplicatePlayer p ∈ kv.2.problems db := by
      unfold Team.problems
      apply List.mem_append_right
      rw [List.mem_flatMap]
      refine ⟨p, List.mem_dedup.mpr hp, ?_⟩
      apply List.mem_append_right
      rw [if_pos hdup]
      exact List.mem_singleton.mpr rfl
    unfold Database.consistencyProblems
    apply List.mem_append_left
    apply List.mem_append_left
    apply List.mem_append_right
    rw [List.mem_flatMap]
    exact ⟨kv, hkv, List.mem_map_of_mem _ hbad⟩
  · intro g hgmem t ht hfalse
    have hbad : DatabaseError.BadReference "team" t ∈ g.problems db := by
      unfold Game.problems
      apply List.mem_append_left
      apply List.mem_append_right
      rw [List.mem_flatMap]
      refine ⟨t, ht, ?_⟩
      rw [if_neg (by rw [hfalse]; exact Bool.false_ne_true)]
      exact List.mem_singleton.mpr rfl
    unfold Database.consistencyProblems
    apply List.mem_append_right
    rw [List.mem_flatMap]
    exact ⟨g, hgmem, List.mem_map_of_mem _ hbad⟩

/-- Witness for C9: the fixture database satisfies every invariant and its
consistency check returns `Ok`. -/
theorem check_consistency_complete_witness :
    ConsistentDb dbT ∧ dbT.check_consistency = Except.ok () :=
  have hc : ConsistentDb dbT := (consistencyProblems_eq_nil_iff dbT).mp (by decide)
  ⟨hc, (check_consistency_complete dbT).1.mpr hc⟩

end Simx

namespace Simx

/-- C7: for every reachable generator state — the remaining batch holds at
most 64 words, covering a fresh generator, mid-batch states, and an
exhausted batch with 0 words left — serializing and deserializing
reconstructs the generator exactly, so every future draw sequence (of any
length) is unchanged: the round-trip is a no-op on the draw sequence. -/
theorem serialize_roundtrip_preserves_draws (r : Rng) (h : r.iter.length ≤ 64) :
    Rng.deserialize (Rng.serialize r) = r
      ∧ ∀ n : ℕ, (Rng.deserialize (Rng.serialize r)).drawN n = r.drawN n := by
  have heq : Rng.deserialize (Rng.serialize r) = r := by
    cases r with
    | mk st it =>
        simp [Rng.deserialize, Rng.serialize, Nat.min_eq_right h]
  exact ⟨heq, fun n => by rw [heq]⟩

/-- Witness for C7 at a concrete mid-batch state. -/
theorem serialize_roundtrip_preserves_draws_witness :
    (⟨(12345, 67890), [7, 8, 9]⟩ : Rng).iter.length ≤ 64
      ∧ Rng.deserialize (Rng.serialize ⟨(12345, 67890), [7, 8, 9]⟩)
          = (⟨(12345, 67890), [7, 8, 9]⟩ : Rng) :=
  ⟨by decide,
    (serialize_roundtrip_preserves_draws ⟨(12345, 67890), [7, 8, 9]⟩ (by decide)).1⟩

end Simx
